import Mathlib

/-!
Shallow embedding of the port-PR workflow of `go/porting.go` (the vitess
bot-review-checklist repository): the label-planning loop and orchestrator
`backportPR`, and the per-branch executor `portPR`.  External systems (the
GitHub API and the git CLI) are modelled by an environment of call outcomes;
each run also produces a trace of the external calls it issued, so theorems
can speak about which side effects were attempted and with which arguments.
-/

/-! ## Go `strings` operations, modelled structurally on character lists -/

/-- Model of Go `strings.HasPrefix` restricted to character lists:
`chListHasPre p s` is true when `p` is a prefix of `s`. -/
def chListHasPre : List Char → List Char → Bool
  | [], _ => true
  | _ :: _, [] => false
  | p :: ps, c :: cs => p == c && chListHasPre ps cs

/-- Model of Go `strings.Contains` on character lists: `containsSub sub s`
is true when `sub` occurs contiguously in `s` (Go's `Contains(s, "")` is
`true`, matched by the `isEmpty` base case). -/
def containsSub (sub : List Char) : List Char → Bool
  | [] => sub.isEmpty
  | c :: rest => chListHasPre sub (c :: rest) || containsSub sub rest

/-- Go `strings.HasPrefix s pre`. -/
def goHasPrefix (s pre : String) : Bool := chListHasPre pre.data s.data

/-- Go `strings.Contains s sub`. -/
def goContains (s sub : String) : Bool := containsSub sub.data s.data

/-- Worker for `goSplit`: scans `s` left to right; on each occurrence of the
(nonempty) separator emits the accumulated segment and resumes after it,
exactly as Go's `strings.Split` does.  `fuel` bounds the recursion; every
step consumes at least one character when `sep` is nonempty, so
`s.length + 1` fuel always suffices. -/
def goSplitAux (sep : List Char) : Nat → List Char → List Char → List String
  | 0, s, acc => [(acc.reverse ++ s).asString]
  | _ + 1, [], acc => [acc.reverse.asString]
  | fuel + 1, c :: rest, acc =>
    if chListHasPre sep (c :: rest) then
      acc.reverse.asString :: goSplitAux sep fuel ((c :: rest).drop sep.length) []
    else
      goSplitAux sep fuel rest (c :: acc)

/-- Go `strings.Split s sep` for a nonempty separator (the only way the
source calls it: the separators are the two port-label prefix constants). -/
def goSplit (s sep : String) : List String :=
  goSplitAux sep.data (s.data.length + 1) s.data []

/-- `strings.Split(s, sep)[1]`: the source indexes the split unconditionally;
the index is in range because the call site is guarded by
`strings.HasPrefix(s, sep)`, which forces at least one separator occurrence.
Out of range would panic in Go; here it defaults to `""`. -/
def goSplitSecond (s sep : String) : String := (goSplit s sep).getD 1 ""

/-! ## Constants from the source -/

/-- `backportLabelPrefix = "Backport to: "`. -/
def backportLabelPfx : String := "Backport to: "

/-- `forwardportLabelPrefix = "Forwardport to: "`. -/
def forwardportLabelPfx : String := "Forwardport to: "

/-- `backport = "backport"`. -/
def backport : String := "backport"

/-- `forwardport = "forwardport"`. -/
def forwardport : String := "forwardport"

/-- The fixed bot author argument passed to `git commit` in both the amend
and the conflict-commit invocations. -/
def botAuthorFlag : String :=
  "--author=\"vitess-bot[bot] <108069721+vitess-bot[bot]@users.noreply.github.com>\""

/-- `errors.Wrapf(err, msg)`: wraps an error message with context.  Claims
only inspect error presence, but the wrapping is kept for fidelity. -/
def wrapf (msg err : String) : String := msg ++ ": " ++ err

/-! ## Data model -/

/-- A GitHub label (`*github.Label`); `GetName` is the only accessor used. -/
structure Label where
  name : String
deriving DecidableEq

/-- A GitHub user; only `GetLogin` is used. -/
structure User where
  login : String
deriving DecidableEq

/-- A GitHub team; only `GetName` is used. -/
structure Team where
  tname : String
deriving DecidableEq

/-- Result of `client.PullRequests.ListReviewers`. -/
structure Reviewers where
  users : List User
  teams : List Team
deriving DecidableEq

/-- A git reference as returned by `client.Git.GetRef`; the source reads
`releaseRef.GetObject().SHA`. -/
structure Reference where
  sha : String
deriving DecidableEq

/-- The pull request created by `client.PullRequests.Create`; the source
reads only `GetNumber()`. -/
structure CreatedPR where
  number : Nat
deriving DecidableEq

/-- The merged pull request (`*github.PullRequest`) with the accessors the
source uses: `GetNumber`, `GetTitle`, `GetMergeCommitSHA`,
`GetUser().GetLogin()`, and `Labels` (whose entries may be nil). -/
structure PullRequest where
  number : Nat
  title : String
  mergeCommitSHA : String
  userLogin : String
  labels : List (Option Label)
deriving DecidableEq

/-- `prInformation` from the source. -/
structure PrInformation where
  num : Nat
  repoOwner : String
  repoName : String
  merged : Bool
deriving DecidableEq

/-- `github.NewPullRequest` with the fields the source sets. -/
structure NewPullRequest where
  title : String
  head : String
  base : String
  body : String
  maintainerCanModify : Bool
  draft : Bool
deriving DecidableEq

/-- One external call issued by `portPR`, with the arguments the source
passes: the trace of these is the observable side-effect behaviour. -/
inductive Effect where
  | getRef (ref : String)
  | createRef (ref : String) (sha : String)
  | gitClone (url : String) (dir : String)
  | gitFetch
  | gitCheckout (branch : String)
  | gitCherryPick (sha : String)
  | gitAdd
  | gitCommit (author : String) (message : String)
  | gitCommitAmend (author : String)
  | gitPush (branch : String)
  | createPR (npr : NewPullRequest)
  | addLabels (prNumber : Nat) (labels : List String)
  | createComment (prNumber : Nat) (body : String)
  | listReviewers
  | requestReviewers (prNumber : Nat) (reviewers : List String)
deriving DecidableEq

/-- Outcomes of the external calls `portPR` makes, one field per call site.
`Option String` holds the error message when the call fails; `Except` calls
also return a value on success. -/
structure PortEnv where
  getRefRes : Except String Reference
  createRefRes : Option String
  cloneRes : Option String
  fetchRes : Option String
  checkoutRes : Option String
  cherryPickRes : Option String
  gitAddRes : Option String
  commitRes : Option String
  amendRes : Option String
  pushRes : Option String
  createPRRes : Except String CreatedPR
  addLabelsRes : Option String
  createCommentRes : Option String
  listReviewersRes : Except String Reviewers
  requestReviewersRes : Option String

/-- What a `portPR` run produced: the trace of external calls, and the Go
return value `(int, error)`.  `hadConflict` mirrors the local `conflict`
variable at the point the function returns (false on the early-return paths
that precede or skip the conflict branch); it is the quantity the spec's
`PortResult.hadConflict` describes. -/
structure PortOutcome where
  effects : List Effect
  prNumber : Nat
  err : Option String
  hadConflict : Bool
deriving DecidableEq

/-! ## The per-branch port executor `portPR` -/

/-- The clone step's error handling (`porting.go` lines 56-59): a clone
error whose message contains `"already exists and is not an empty
directory"` is tolerated (the local working copy is reused); any other
clone error is fatal. -/
def cloneFatalErr : Option String → Option String
  | none => none
  | some e =>
    if goContains e "already exists and is not an empty directory" then none else some e

/-- The working-branch name `fmt.Sprintf("%s-%d-to-%s", portType,
pr.GetNumber(), branch)`. -/
def newBranchName (portType : String) (prNumber : Nat) (branch : String) : String :=
  portType ++ "-" ++ toString prNumber ++ "-to-" ++ branch

/-- The kind label appended by the `switch portType` (lines 122-127); no
label is appended for any other string. -/
def kindLabels (portType : String) : List String :=
  if portType == backport then ["Backport"]
  else if portType == forwardport then ["Forwardport"]
  else []

/-- The conflict-notice comment body (the `fmt.Sprintf` at lines 136-147). -/
def conflictCommentBody (originalPRAuthor portType repoOwner repoName : String)
    (newPRNumber : Nat) (branch mergedCommitSHA : String) : String :=
  "Hello @" ++ originalPRAuthor ++ ", there are conflicts in this " ++ portType ++
  ".\n\nPlease addresse them in order to merge this Pull Request. You can execute the snippet below to reset your branch and resolve the conflict manually.\n\nMake sure you replace `origin` by the name of the " ++
  repoOwner ++ "/" ++ repoName ++ " remote \n```\ngit fetch --all\ngh pr checkout " ++
  toString newPRNumber ++ " -R " ++ repoOwner ++ "/" ++ repoName ++
  "\ngit reset --hard origin/" ++ branch ++ "\ngit cherry-pick -m 1 " ++
  mergedCommitSHA ++ "\n"

/-- The reviewer-copying tail of `portPR` (`porting.go` lines 156-176):
list the original PR's reviewers, append the original author, and request
them all on the new PR. -/
def portPRReviewers (prInfo : PrInformation) (env : PortEnv)
    (originalPRAuthor : String) (newPRNumber : Nat) (conflict : Bool)
    (e : List Effect) : PortOutcome :=
  let e := e ++ [Effect.listReviewers]
  match env.listReviewersRes with
  | .error err =>
    ⟨e, 0, some (wrapf ("Failed to get the list of reviewers on Pull Request " ++
      toString prInfo.num) err), conflict⟩
  | .ok oldReviewers =>
    let reviewers := oldReviewers.users.map User.login ++
      oldReviewers.teams.map Team.tname ++ [originalPRAuthor]
    let e := e ++ [Effect.requestReviewers newPRNumber reviewers]
    match env.requestReviewersRes with
    | some err => ⟨e, 0, some (wrapf "" err), conflict⟩
    | none => ⟨e, newPRNumber, none, conflict⟩

/-- The code of `portPR` after the cherry-pick if/else chain (`porting.go`
lines 98-176), shared by the conflicted and the clean branch: push the
working branch, create the new pull request, apply the labels, post the
conflict comment when conflicted, and copy the reviewers.  `e` is the trace
accumulated so far and `conflict` the value of the local `conflict`
variable. -/
def portPRRest (prInfo : PrInformation) (pr : PullRequest)
    (mergedCommitSHA branch portType : String) (labels : List String)
    (env : PortEnv) (newBranch : String) (conflict : Bool)
    (e : List Effect) : PortOutcome :=
  let e := e ++ [Effect.gitPush newBranch]
  match env.pushRes with
  | some err =>
    ⟨e, 0, some (wrapf ("Failed to push " ++ newBranch ++
      " to backport Pull Request " ++ toString prInfo.num) err), conflict⟩
  | none =>
    let newPR : NewPullRequest :=
      ⟨"[" ++ branch ++ "] " ++ pr.title ++ " (#" ++ toString pr.number ++ ")",
       newBranch, branch,
       "## Description\nThis is a " ++ portType ++ " of #" ++ toString pr.number,
       true, conflict⟩
    let e := e ++ [Effect.createPR newPR]
    match env.createPRRes with
    | .error err => ⟨e, 0, some (wrapf "" err), conflict⟩
    | .ok newPRCreated =>
      let labelsToAdd := labels ++
        (if conflict then ["Merge Conflict", "Skip CI"] else []) ++
        kindLabels portType
      let newPRNumber := newPRCreated.number
      let e := e ++ [Effect.addLabels newPRNumber labelsToAdd]
      match env.addLabelsRes with
      | some err =>
        ⟨e, 0, some (wrapf ("Failed to assign labels to Pull Request " ++
          toString newPRNumber) err), conflict⟩
      | none =>
        let originalPRAuthor := pr.userLogin
        if conflict then
          let body := conflictCommentBody originalPRAuthor portType
            prInfo.repoOwner prInfo.repoName newPRNumber branch mergedCommitSHA
          let e := e ++ [Effect.createComment newPRNumber body]
          match env.createCommentRes with
          | some err =>
            ⟨e, 0, some (wrapf ("Failed to comment conflict notice on Pull Request " ++
              toString newPRNumber) err), conflict⟩
          | none => portPRReviewers prInfo env originalPRAuthor newPRNumber conflict e
        else portPRReviewers prInfo env originalPRAuthor newPRNumber conflict e

/-- `portPR` (`porting.go` lines 28-177): one port attempt of the merged
commit onto one target branch.  Mirrors the source's sequence of external
calls and early returns; `env` supplies each call's outcome and the result
records the trace of calls made together with Go's `(int, error)` return
value (`0` with a wrapped error on every failure path). -/
def portPR (prInfo : PrInformation) (pr : PullRequest)
    (mergedCommitSHA branch portType : String) (labels : List String)
    (env : PortEnv) : PortOutcome :=
  let e0 := [Effect.getRef ("heads/" ++ branch)]
  match env.getRefRes with
  | .error err => ⟨e0, 0, some (wrapf "" err), false⟩
  | .ok releaseRef =>
    let newBranch := newBranchName portType pr.number branch
    let e1 := e0 ++ [Effect.createRef ("refs/heads/" ++ newBranch) releaseRef.sha]
    match env.createRefRes with
    | some err =>
      ⟨e1, 0, some (wrapf ("Failed to create git ref " ++ newBranch ++ " on repository " ++
        prInfo.repoOwner ++ "/" ++ prInfo.repoName ++ " to backport Pull Request " ++
        toString prInfo.num) err), false⟩
    | none =>
      let e2 := e1 ++ [Effect.gitClone
        ("git@github.com:" ++ prInfo.repoOwner ++ "/" ++ prInfo.repoName ++ ".git")
        "/tmp/vitess"]
      match cloneFatalErr env.cloneRes with
      | some err =>
        ⟨e2, 0, some (wrapf ("Failed to clone repository " ++ prInfo.repoOwner ++ "/" ++
          prInfo.repoName ++ " to backport Pull Request " ++ toString prInfo.num) err), false⟩
      | none =>
        let e3 := e2 ++ [Effect.gitFetch]
        match env.fetchRes with
        | some err =>
          ⟨e3, 0, some (wrapf ("Failed to fetch origin on repository " ++ prInfo.repoOwner ++
            "/" ++ prInfo.repoName ++ " to backport Pull Request " ++
            toString prInfo.num) err), false⟩
        | none =>
          let e4 := e3 ++ [Effect.gitCheckout newBranch]
          match env.checkoutRes with
          | some err =>
            ⟨e4, 0, some (wrapf ("Failed to checkout repository " ++ prInfo.repoOwner ++
              "/" ++ prInfo.repoName ++ " to branch " ++ newBranch ++
              " to backport Pull Request " ++ toString prInfo.num) err), false⟩
          | none =>
            let e5 := e4 ++ [Effect.gitCherryPick mergedCommitSHA]
            let rest := fun (e : List Effect) (conflict : Bool) =>
              portPRRest prInfo pr mergedCommitSHA branch portType labels env
                newBranch conflict e
            match env.cherryPickRes with
            | some err =>
              if goContains err "conflicts" then
                let e6 := e5 ++ [Effect.gitAdd]
                match env.gitAddRes with
                | some err2 =>
                  ⟨e6, 0, some (wrapf ("Failed to do 'git add' on branch " ++ newBranch ++
                    " to backport Pull Request " ++ toString prInfo.num) err2), false⟩
                | none =>
                  let e7 := e6 ++ [Effect.gitCommit botAuthorFlag
                    ("Cherry-pick " ++ mergedCommitSHA ++ " with conflicts")]
                  match env.commitRes with
                  | some err3 =>
                    ⟨e7, 0, some (wrapf ("Failed to do 'git commit' on branch " ++ newBranch ++
                      " to backport Pull Request " ++ toString prInfo.num) err3), false⟩
                  | none => rest e7 true
              else
                ⟨e5, 0, some (wrapf ("Failed to cherry-pick " ++ mergedCommitSHA ++
                  " to branch " ++ newBranch ++ " to backport Pull Request " ++
                  toString prInfo.num) err), false⟩
            | none =>
              let e6 := e5 ++ [Effect.gitCommitAmend botAuthorFlag]
              match env.amendRes with
              | some err =>
                ⟨e6, 0, some (wrapf ("Failed to do 'git commit --amend' on branch " ++
                  newBranch ++ " to backport Pull Request " ++ toString prInfo.num) err), false⟩
              | none => rest e6 false

/-! ## The orchestrator `backportPR` -/

/-- The label-planning loop of `backportPR` (`porting.go` lines 405-421):
partitions the merged PR's labels into backport branches, forward-port
branches and carried-over labels, skipping nil entries. -/
def planLabels : List (Option Label) → List String × List String × List String
  | [] => ([], [], [])
  | none :: rest => planLabels rest
  | some label :: rest =>
    let r := planLabels rest
    if goHasPrefix label.name backportLabelPfx then
      (goSplitSecond label.name backportLabelPfx :: r.1, r.2.1, r.2.2)
    else if goHasPrefix label.name forwardportLabelPfx then
      (r.1, goSplitSecond label.name forwardportLabelPfx :: r.2.1, r.2.2)
    else
      (r.1, r.2.1, label.name :: r.2.2)

/-- Outcomes of the external calls `backportPR` itself makes: the initial
`PullRequests.Get`, and one `PortEnv` per `portPR` invocation, keyed by the
port type and the target branch. -/
structure BackportEnv where
  getPRRes : Except String PullRequest
  envFor : String → String → PortEnv

/-- The per-branch loops of `backportPR` (lines 425-438): one `portPR`
invocation per branch; a failed invocation is logged and the loop
continues with the next branch. -/
def runPorts (prInfo : PrInformation) (pr : PullRequest) (mergedCommitSHA portType : String)
    (labels : List String) (envFor : String → String → PortEnv) :
    List String → List (String × String × PortOutcome)
  | [] => []
  | branch :: restBranches =>
    (portType, branch,
      portPR prInfo pr mergedCommitSHA branch portType labels (envFor portType branch)) ::
    runPorts prInfo pr mergedCommitSHA portType labels envFor restBranches

/-- `backportPR` (`porting.go` lines 389-441): fetches the merged PR, plans
the port branches from its labels, and runs one `portPR` per backport and
forward-port branch.  Returns the list of per-branch attempts (port type,
branch, outcome); the Go function always returns a nil error once the PR
lookup succeeded, and returns nil (here `[]`) when the lookup failed. -/
def backportPR (prInfo : PrInformation) (benv : BackportEnv) :
    List (String × String × PortOutcome) :=
  match benv.getPRRes with
  | .error _ => []
  | .ok pr =>
    let plan := planLabels pr.labels
    let mergedCommitSHA := pr.mergeCommitSHA
    runPorts prInfo pr mergedCommitSHA backport plan.2.2 benv.envFor plan.1 ++
    runPorts prInfo pr mergedCommitSHA forwardport plan.2.2 benv.envFor plan.2.1

/-! ## Helper lemmas on the string model -/

theorem chListHasPre_append (l t : List Char) : chListHasPre l (l ++ t) = true := by
  induction l with
  | nil => rfl
  | cons c cs ih => simp [chListHasPre, ih]

theorem containsSub_nil_sub (s : List Char) : containsSub [] s = true := by
  cases s <;> simp [containsSub, chListHasPre]

theorem containsSub_self_append (sub b : List Char) : containsSub sub (sub ++ b) = true := by
  cases sub with
  | nil => exact containsSub_nil_sub b
  | cons p ps => simp [containsSub, chListHasPre, chListHasPre_append]

theorem containsSub_append_of (x t sub : List Char) (h : containsSub sub t = true) :
    containsSub sub (x ++ t) = true := by
  induction x with
  | nil => simpa using h
  | cons c cs ih => simp [containsSub, ih]

theorem chListHasPre_and_ne_first (a b : Char) (as bs s : List Char) (hab : a ≠ b) :
    (chListHasPre (a :: as) s && chListHasPre (b :: bs) s) = false := by
  cases s with
  | nil => simp [chListHasPre]
  | cons c cs =>
    simp only [chListHasPre, Bool.and_eq_false_iff]
    by_cases hac : a = c
    · subst hac
      right
      left
      simp only [beq_eq_false_iff_ne, ne_eq]
      exact fun h => hab h.symm
    · left
      left
      simp only [beq_eq_false_iff_ne, ne_eq]
      exact hac

theorem goHasPrefix_disjoint (s : String) :
    (goHasPrefix s backportLabelPfx && goHasPrefix s forwardportLabelPfx) = false := by
  have hb : backportLabelPfx.data = 'B' :: "ackport to: ".data := rfl
  have hf : forwardportLabelPfx.data = 'F' :: "orwardport to: ".data := rfl
  rw [goHasPrefix, goHasPrefix, hb, hf]
  exact chListHasPre_and_ne_first _ _ _ _ _ (by decide)

/-- The suffix of a label after a prefix, as the spec's words describe the
contributed branch name; compared against the program's
`strings.Split(label, prefix)[1]`. -/
def labelSuffix (s pre : String) : String := (s.data.drop pre.data.length).asString

/-! ## C1 -/

/-- C1: as stated, the claim is false: the planning loop partitions the
labels into three disjoint groups with exact prefix matching, but the
branch a port label contributes is `strings.Split(label, prefix)[1]`, not
the label's suffix.  At the concrete label
`"Backport to: Backport to: release-1"` the suffix after the prefix is
`"Backport to: release-1"`, while the loop contributes `""` (the prefix
reoccurs in the suffix, so the split has three fields). -/
theorem planLabels_suffix_counterexample :
    goHasPrefix "Backport to: Backport to: release-1" backportLabelPfx = true ∧
    (planLabels [some ⟨"Backport to: Backport to: release-1"⟩]).1 = [""] ∧
    labelSuffix "Backport to: Backport to: release-1" backportLabelPfx =
      "Backport to: release-1" ∧
    (planLabels [some ⟨"Backport to: Backport to: release-1"⟩]).1 ≠
      [labelSuffix "Backport to: Backport to: release-1" backportLabelPfx] := by
  decide

/-- C1 (amended): for every label set, the planning loop partitions the
labels into three disjoint groups — labels with exact prefix
`"Backport to: "` contribute `strings.Split(label, prefix)[1]` (the suffix
whenever the prefix does not reoccur in it) to the backport branch list,
remaining labels with exact prefix `"Forwardport to: "` likewise to the
forward-port branch list, and every other (non-nil) label goes to the
carry-over list — no label contributes to two groups, the two prefixes are
mutually exclusive on every string, and prefix matching is exact
(`"Backports to: x"` does not match). -/
theorem planLabels_partition (labels : List (Option Label)) :
    planLabels labels =
      (((labels.filterMap id).filter fun l => goHasPrefix l.name backportLabelPfx).map
          (fun l => goSplitSecond l.name backportLabelPfx),
       ((labels.filterMap id).filter fun l =>
          !goHasPrefix l.name backportLabelPfx && goHasPrefix l.name forwardportLabelPfx).map
          (fun l => goSplitSecond l.name forwardportLabelPfx),
       ((labels.filterMap id).filter fun l =>
          !goHasPrefix l.name backportLabelPfx && !goHasPrefix l.name forwardportLabelPfx).map
          Label.name) ∧
    (∀ s : String, (goHasPrefix s backportLabelPfx && goHasPrefix s forwardportLabelPfx) = false) ∧
    goHasPrefix "Backports to: x" backportLabelPfx = false := by
  refine ⟨?_, goHasPrefix_disjoint, by decide⟩
  induction labels with
  | nil => rfl
  | cons hd tl ih =>
    cases hd with
    | none => simpa [planLabels] using ih
    | some l =>
      by_cases hb : goHasPrefix l.name backportLabelPfx
      · simp [planLabels, List.filterMap_cons, List.filter_cons, hb, ih]
      · by_cases hf : goHasPrefix l.name forwardportLabelPfx
        · simp [planLabels, List.filterMap_cons, List.filter_cons, hb, hf, ih]
        · simp [planLabels, List.filterMap_cons, List.filter_cons, hb, hf, ih]

/-! ## C10 -/

/-- C10: a nil entry anywhere in the merged PR's label list is skipped by
the planning loop without failing: removing it changes none of the three
outputs (backport branches, forward-port branches, carried-over labels). -/
theorem planLabels_skips_nil (l₁ l₂ : List (Option Label)) :
    planLabels (l₁ ++ none :: l₂) = planLabels (l₁ ++ l₂) := by
  induction l₁ with
  | nil => rfl
  | cons hd tl ih =>
    cases hd with
    | none => simpa [planLabels] using ih
    | some l => simp [planLabels, ih]

/-! ## Helper lemmas about the executor's tail -/

/-- Does an effect that names the working branch name it correctly?
Effects that carry no branch name pass vacuously. -/
def effectUsesBranch (nb : String) : Effect → Bool
  | .createRef r _ => r == "refs/heads/" ++ nb
  | .gitCheckout b => b == nb
  | .gitPush b => b == nb
  | .createPR npr => npr.head == nb
  | _ => true

/-- Is this effect a `CreateComment` call? -/
def isCommentEffect : Effect → Bool
  | .createComment _ _ => true
  | _ => false

theorem portPRRest_hadConflict (prInfo : PrInformation) (pr : PullRequest)
    (sha branch portType : String) (labels : List String) (env : PortEnv)
    (nb : String) (conflict : Bool) (e : List Effect) :
    (portPRRest prInfo pr sha branch portType labels env nb conflict e).hadConflict =
      conflict := by
  simp only [portPRRest, portPRReviewers]
  repeat' split
  all_goals rfl

theorem portPRRest_createPR_draft (prInfo : PrInformation) (pr : PullRequest)
    (sha branch portType : String) (labels : List String) (env : PortEnv)
    (nb : String) (conflict : Bool) (e : List Effect) (npr : NewPullRequest)
    (h : Effect.createPR npr ∈
      (portPRRest prInfo pr sha branch portType labels env nb conflict e).effects) :
    Effect.createPR npr ∈ e ∨ npr.draft = conflict := by
  simp only [portPRRest, portPRReviewers] at h
  repeat' split at h
  all_goals simp at h
  all_goals
    first
      | exact Or.inl h
      | (rcases h with h | h
         · exact Or.inl h
         · exact Or.inr (by rw [h]))

/-- Is this effect a `PullRequests.Create` call? -/
def isCreatePREffect : Effect → Bool
  | .createPR _ => true
  | _ => false

theorem portPRRest_branchOk (prInfo : PrInformation) (pr : PullRequest)
    (sha branch portType : String) (labels : List String) (env : PortEnv)
    (nb : String) (conflict : Bool) (e : List Effect)
    (h : e.all (effectUsesBranch nb) = true) :
    (portPRRest prInfo pr sha branch portType labels env nb conflict e).effects.all
      (effectUsesBranch nb) = true := by
  simp only [portPRRest, portPRReviewers]
  repeat' split
  all_goals simp_all [effectUsesBranch]

theorem portPRRest_success_reviewers (prInfo : PrInformation) (pr : PullRequest)
    (sha branch portType : String) (labels : List String) (env : PortEnv)
    (nb : String) (conflict : Bool) (e : List Effect) (old : Reviewers)
    (hlr : env.listReviewersRes = .ok old)
    (hok : (portPRRest prInfo pr sha branch portType labels env nb conflict e).err = none) :
    ∃ n, Effect.requestReviewers n
        (old.users.map User.login ++ old.teams.map Team.tname ++ [pr.userLogin]) ∈
      (portPRRest prInfo pr sha branch portType labels env nb conflict e).effects := by
  obtain ⟨g, cr, cl, fe, co, cp, ga, cm, am, pu, pc, al, cc, lr, rr⟩ := env
  dsimp only at hlr
  subst hlr
  rcases pu with _ | pue
  · rcases pc with pce | pcr
    · simp [portPRRest] at hok
    · rcases al with _ | ale
      · cases conflict
        · rcases rr with _ | rre
          · exact ⟨pcr.number, by simp [portPRRest, portPRReviewers]⟩
          · simp [portPRRest, portPRReviewers] at hok
        · rcases cc with _ | cce
          · rcases rr with _ | rre
            · exact ⟨pcr.number, by simp [portPRRest, portPRReviewers]⟩
            · simp [portPRRest, portPRReviewers] at hok
          · simp [portPRRest, portPRReviewers] at hok
      · simp [portPRRest] at hok
  · simp [portPRRest] at hok

theorem portPRRest_post_failure (prInfo : PrInformation) (pr : PullRequest)
    (sha branch portType : String) (labels : List String) (env : PortEnv)
    (nb : String) (conflict : Bool) (e : List Effect) (created : CreatedPR)
    (hpu : env.pushRes = none) (hpc : env.createPRRes = .ok created)
    (hfail : env.addLabelsRes.isSome = true ∨
      (conflict = true ∧ env.createCommentRes.isSome = true) ∨
      (∃ er, env.listReviewersRes = .error er) ∨
      env.requestReviewersRes.isSome = true) :
    (portPRRest prInfo pr sha branch portType labels env nb conflict e).err.isSome = true ∧
    (portPRRest prInfo pr sha branch portType labels env nb conflict e).prNumber = 0 ∧
    (portPRRest prInfo pr sha branch portType labels env nb conflict e).effects.any
      isCreatePREffect = true := by
  obtain ⟨g, cr, cl, fe, co, cp, ga, cm, am, pu, pc, al, cc, lr, rr⟩ := env
  dsimp only at hpu hpc hfail
  subst hpu
  subst hpc
  rcases al with _ | ale
  · cases conflict
    · rcases lr with lre | lrok
      · refine ⟨?_, ?_, ?_⟩ <;> simp [portPRRest, portPRReviewers, isCreatePREffect]
      · rcases rr with _ | rre
        · simp at hfail
        · refine ⟨?_, ?_, ?_⟩ <;> simp [portPRRest, portPRReviewers, isCreatePREffect]
    · rcases cc with _ | cce
      · rcases lr with lre | lrok
        · refine ⟨?_, ?_, ?_⟩ <;> simp [portPRRest, portPRReviewers, isCreatePREffect]
        · rcases rr with _ | rre
          · simp at hfail
          · refine ⟨?_, ?_, ?_⟩ <;> simp [portPRRest, portPRReviewers, isCreatePREffect]
      · refine ⟨?_, ?_, ?_⟩ <;> simp [portPRRest, portPRReviewers, isCreatePREffect]
  · refine ⟨?_, ?_, ?_⟩ <;> simp [portPRRest, portPRReviewers, isCreatePREffect]

/-- On a run whose git/GitHub steps succeed up to a conflicting cherry-pick
(the cherry-pick error message contains `"conflicts"`) followed by a
successful `git add` and conflict commit, `portPR` reaches its shared tail
with `conflict = true` and the trace of the steps done so far. -/
theorem portPR_conflict_run (prInfo : PrInformation) (pr : PullRequest)
    (sha branch portType : String) (labels : List String) (env : PortEnv)
    (ref : Reference) (m : String)
    (hg : env.getRefRes = .ok ref) (hcr : env.createRefRes = none)
    (hcl : cloneFatalErr env.cloneRes = none) (hf : env.fetchRes = none)
    (hco : env.checkoutRes = none) (hcp : env.cherryPickRes = some m)
    (hm : goContains m "conflicts" = true) (hga : env.gitAddRes = none)
    (hcm : env.commitRes = none) :
    portPR prInfo pr sha branch portType labels env =
      portPRRest prInfo pr sha branch portType labels env
        (newBranchName portType pr.number branch) true
        [Effect.getRef ("heads/" ++ branch),
         Effect.createRef ("refs/heads/" ++ newBranchName portType pr.number branch) ref.sha,
         Effect.gitClone ("git@github.com:" ++ prInfo.repoOwner ++ "/" ++
           prInfo.repoName ++ ".git") "/tmp/vitess",
         Effect.gitFetch,
         Effect.gitCheckout (newBranchName portType pr.number branch),
         Effect.gitCherryPick sha,
         Effect.gitAdd,
         Effect.gitCommit botAuthorFlag ("Cherry-pick " ++ sha ++ " with conflicts")] := by
  simp [portPR, hg, hcr, hcl, hf, hco, hcp, hm, hga, hcm]

/-- On a run whose git steps succeed with a clean cherry-pick and a
successful author amend, `portPR` reaches its shared tail with
`conflict = false`. -/
theorem portPR_clean_run (prInfo : PrInformation) (pr : PullRequest)
    (sha branch portType : String) (labels : List String) (env : PortEnv)
    (ref : Reference)
    (hg : env.getRefRes = .ok ref) (hcr : env.createRefRes = none)
    (hcl : cloneFatalErr env.cloneRes = none) (hf : env.fetchRes = none)
    (hco : env.checkoutRes = none) (hcp : env.cherryPickRes = none)
    (ham : env.amendRes = none) :
    portPR prInfo pr sha branch portType labels env =
      portPRRest prInfo pr sha branch portType labels env
        (newBranchName portType pr.number branch) false
        [Effect.getRef ("heads/" ++ branch),
         Effect.createRef ("refs/heads/" ++ newBranchName portType pr.number branch) ref.sha,
         Effect.gitClone ("git@github.com:" ++ prInfo.repoOwner ++ "/" ++
           prInfo.repoName ++ ".git") "/tmp/vitess",
         Effect.gitFetch,
         Effect.gitCheckout (newBranchName portType pr.number branch),
         Effect.gitCherryPick sha,
         Effect.gitCommitAmend botAuthorFlag] := by
  simp [portPR, hg, hcr, hcl, hf, hco, hcp, ham]

/-- In every `portPR` run, the draft flag of any created pull request
equals the final conflict flag: drafts exactly mark conflicted ports. -/
theorem portPR_draft_conflict (prInfo : PrInformation) (pr : PullRequest)
    (sha branch portType : String) (labels : List String) (env : PortEnv)
    (npr : NewPullRequest)
    (h : Effect.createPR npr ∈ (portPR prInfo pr sha branch portType labels env).effects) :
    npr.draft = (portPR prInfo pr sha branch portType labels env).hadConflict := by
  obtain ⟨g, cr, cl, fe, co, cp, ga, cm, am, pu, pc, al, cc, lr, rr⟩ := env
  rcases g with ge | ref
  · simp [portPR] at h
  · rcases cr with _ | cre
    · rcases hcl : cloneFatalErr cl with _ | ce
      · rcases fe with _ | fee
        · rcases co with _ | coe
          · rcases cp with _ | cpe
            · rcases am with _ | ame
              · simp only [portPR, hcl] at h ⊢
                rcases portPRRest_createPR_draft _ _ _ _ _ _ _ _ _ _ _ h with h' | h'
                · simp at h'
                · rw [portPRRest_hadConflict]
                  exact h'
              · simp [portPR, hcl] at h
            · by_cases hm : goContains cpe "conflicts"
              · rcases ga with _ | gae
                · rcases cm with _ | cme
                  · simp only [portPR, hcl, hm, if_true] at h ⊢
                    rcases portPRRest_createPR_draft _ _ _ _ _ _ _ _ _ _ _ h with h' | h'
                    · simp at h'
                    · rw [portPRRest_hadConflict]
                      exact h'
                  · simp [portPR, hcl, hm] at h
                · simp [portPR, hcl, hm] at h
              · simp [portPR, hcl, hm] at h
          · simp [portPR, hcl] at h
        · simp [portPR, hcl] at h
      · simp [portPR, hcl] at h
    · simp [portPR] at h

theorem portPRRest_mem_prefix (prInfo : PrInformation) (pr : PullRequest)
    (sha branch portType : String) (labels : List String) (env : PortEnv)
    (nb : String) (conflict : Bool) (e : List Effect) (x : Effect) (hx : x ∈ e) :
    x ∈ (portPRRest prInfo pr sha branch portType labels env nb conflict e).effects := by
  simp only [portPRRest, portPRReviewers]
  repeat' split
  all_goals simp [hx]

theorem portPRRest_createPR_mem (prInfo : PrInformation) (pr : PullRequest)
    (sha branch portType : String) (labels : List String) (env : PortEnv)
    (nb : String) (conflict : Bool) (e : List Effect) (created : CreatedPR)
    (hpu : env.pushRes = none) (hpc : env.createPRRes = .ok created) :
    Effect.createPR
        ⟨"[" ++ branch ++ "] " ++ pr.title ++ " (#" ++ toString pr.number ++ ")", nb, branch,
         "## Description\nThis is a " ++ portType ++ " of #" ++ toString pr.number,
         true, conflict⟩ ∈
      (portPRRest prInfo pr sha branch portType labels env nb conflict e).effects := by
  simp only [portPRRest, portPRReviewers, hpu, hpc]
  repeat' split
  all_goals simp

theorem portPRRest_addLabels_mem (prInfo : PrInformation) (pr : PullRequest)
    (sha branch portType : String) (labels : List String) (env : PortEnv)
    (nb : String) (conflict : Bool) (e : List Effect) (created : CreatedPR)
    (hpu : env.pushRes = none) (hpc : env.createPRRes = .ok created) :
    Effect.addLabels created.number
        (labels ++ (if conflict then ["Merge Conflict", "Skip CI"] else []) ++
          kindLabels portType) ∈
      (portPRRest prInfo pr sha branch portType labels env nb conflict e).effects := by
  simp only [portPRRest, portPRReviewers, hpu, hpc]
  repeat' split
  all_goals simp

theorem portPRRest_addLabels_inv (prInfo : PrInformation) (pr : PullRequest)
    (sha branch portType : String) (labels : List String) (env : PortEnv)
    (nb : String) (conflict : Bool) (e : List Effect) (n : Nat) (ls : List String)
    (h : Effect.addLabels n ls ∈
      (portPRRest prInfo pr sha branch portType labels env nb conflict e).effects) :
    Effect.addLabels n ls ∈ e ∨
      ls = labels ++ (if conflict then ["Merge Conflict", "Skip CI"] else []) ++
        kindLabels portType := by
  simp only [portPRRest, portPRReviewers] at h
  repeat' split at h
  all_goals simp at h
  all_goals
    first
      | exact Or.inl h
      | (rcases h with h | h
         · exact Or.inl h
         · right
           simp_all)

theorem portPRRest_comment_count (prInfo : PrInformation) (pr : PullRequest)
    (sha branch portType : String) (labels : List String) (env : PortEnv)
    (nb : String) (e : List Effect) (created : CreatedPR)
    (hpu : env.pushRes = none) (hpc : env.createPRRes = .ok created)
    (hal : env.addLabelsRes = none) :
    (portPRRest prInfo pr sha branch portType labels env nb true e).effects.countP
        isCommentEffect =
      e.countP isCommentEffect + 1 := by
  simp only [portPRRest, portPRReviewers, hpu, hpc, hal]
  repeat' split
  all_goals simp_all [List.countP_append, List.countP_cons, isCommentEffect]

theorem portPRRest_comment_mem (prInfo : PrInformation) (pr : PullRequest)
    (sha branch portType : String) (labels : List String) (env : PortEnv)
    (nb : String) (e : List Effect) (created : CreatedPR)
    (hpu : env.pushRes = none) (hpc : env.createPRRes = .ok created)
    (hal : env.addLabelsRes = none) :
    Effect.createComment created.number
        (conflictCommentBody pr.userLogin portType prInfo.repoOwner prInfo.repoName
          created.number branch sha) ∈
      (portPRRest prInfo pr sha branch portType labels env nb true e).effects := by
  simp only [portPRRest, portPRReviewers, hpu, hpc, hal]
  repeat' split
  all_goals simp_all

theorem conflictCommentBody_contains_sha (a pt o r : String) (n : Nat) (br sha : String) :
    goContains (conflictCommentBody a pt o r n br sha) sha = true := by
  unfold goContains conflictCommentBody
  simp only [String.data_append, List.append_assoc]
  repeat'
    first
      | exact containsSub_self_append _ _
      | apply containsSub_append_of

theorem conflictCommentBody_contains_number (a pt o r : String) (n : Nat)
    (br sha : String) :
    goContains (conflictCommentBody a pt o r n br sha) (toString n) = true := by
  unfold goContains conflictCommentBody
  simp only [String.data_append, List.append_assoc]
  repeat'
    first
      | exact containsSub_self_append _ _
      | apply containsSub_append_of

theorem runPorts_eq_map (prInfo : PrInformation) (pr : PullRequest)
    (sha portType : String) (labels : List String)
    (envFor : String → String → PortEnv) (branches : List String) :
    runPorts prInfo pr sha portType labels envFor branches =
      branches.map (fun branch => (portType, branch,
        portPR prInfo pr sha branch portType labels (envFor portType branch))) := by
  induction branches with
  | nil => rfl
  | cons b bs ih => simp [runPorts, ih]

theorem runPorts_portType_mem (prInfo : PrInformation) (pr : PullRequest)
    (sha portType : String) (labels : List String)
    (envFor : String → String → PortEnv) (branches : List String)
    (x : String × String × PortOutcome)
    (hx : x ∈ runPorts prInfo pr sha portType labels envFor branches) :
    x.1 = portType := by
  rw [runPorts_eq_map] at hx
  rcases List.mem_map.mp hx with ⟨b, _, rfl⟩
  rfl

/-! ## Concrete fixtures used by witnesses and counterexamples -/

/-- A sample `prInformation` for a merged PR #100 on `vitessio/vitess`. -/
def sampleInfo : PrInformation := ⟨100, "vitessio", "vitess", true⟩

/-- A sample merged pull request. -/
def samplePR : PullRequest := ⟨100, "Fix query planner", "abc123", "alice", []⟩

/-- An environment in which every external call succeeds: the created PR is
number 77 and the original PR has one individual and one team reviewer. -/
def envAllOk : PortEnv :=
  ⟨.ok ⟨"basesha"⟩, none, none, none, none, none, none, none, none, none,
   .ok ⟨77⟩, none, none, .ok ⟨[⟨"bob"⟩], [⟨"maintainers"⟩]⟩, none⟩

/-- Like `envAllOk` but the cherry-pick reports merge conflicts. -/
def envConflictOk : PortEnv :=
  { envAllOk with cherryPickRes := some "error: could not apply abc123: merge conflicts in file.go" }

/-- Like `envAllOk` but the label-apply call after PR creation fails. -/
def envLabelFail : PortEnv :=
  { envAllOk with addLabelsRes := some "labels API failed" }

/-! ## C2 -/

/-- C2: on a port whose cherry-pick conflicts (and whose remaining steps up
to PR creation and label application succeed), `portPR` records
`hadConflict = true`, commits with exactly the message
`"Cherry-pick {sha} with conflicts"` under the fixed bot author flag,
creates the new pull request as a draft (and every created PR is a draft),
applies both `"Merge Conflict"` and `"Skip CI"`, and posts exactly one
conflict comment, whose body contains the merge-commit SHA and the new PR's
number. -/
theorem portPR_conflict_flow (prInfo : PrInformation) (pr : PullRequest)
    (sha branch portType : String) (labels : List String) (env : PortEnv)
    (ref : Reference) (m : String) (created : CreatedPR)
    (hg : env.getRefRes = .ok ref) (hcr : env.createRefRes = none)
    (hcl : cloneFatalErr env.cloneRes = none) (hf : env.fetchRes = none)
    (hco : env.checkoutRes = none) (hcp : env.cherryPickRes = some m)
    (hm : goContains m "conflicts" = true) (hga : env.gitAddRes = none)
    (hcm : env.commitRes = none) (hpu : env.pushRes = none)
    (hpc : env.createPRRes = .ok created) (hal : env.addLabelsRes = none) :
    (portPR prInfo pr sha branch portType labels env).hadConflict = true ∧
    Effect.gitCommit botAuthorFlag ("Cherry-pick " ++ sha ++ " with conflicts") ∈
      (portPR prInfo pr sha branch portType labels env).effects ∧
    (∃ npr, Effect.createPR npr ∈ (portPR prInfo pr sha branch portType labels env).effects ∧
      npr.draft = true) ∧
    (∀ npr, Effect.createPR npr ∈ (portPR prInfo pr sha branch portType labels env).effects →
      npr.draft = true) ∧
    (∃ ls, Effect.addLabels created.number ls ∈
        (portPR prInfo pr sha branch portType labels env).effects ∧
      "Merge Conflict" ∈ ls ∧ "Skip CI" ∈ ls) ∧
    (portPR prInfo pr sha branch portType labels env).effects.countP isCommentEffect = 1 ∧
    ∃ body, Effect.createComment created.number body ∈
        (portPR prInfo pr sha branch portType labels env).effects ∧
      goContains body sha = true ∧ goContains body (toString created.number) = true := by
  obtain ⟨g, cr, cl, fe, co, cp, ga, cm, am, pu, pc, al, cc, lr, rr⟩ := env
  dsimp only at hg hcr hcl hf hco hcp hga hcm hpu hpc hal
  subst hg; subst hcr; subst hf; subst hco; subst hcp; subst hga; subst hcm
  subst hpu; subst hpc; subst hal
  have hrun := portPR_conflict_run prInfo pr sha branch portType labels
    ⟨.ok ref, none, cl, none, none, some m, none, none, am, none, .ok created,
     none, cc, lr, rr⟩ ref m rfl rfl hcl rfl rfl rfl hm rfl rfl
  rw [hrun]
  refine ⟨?_, ?_, ?_, ?_, ?_, ?_, ?_⟩
  · rw [portPRRest_hadConflict]
  · exact portPRRest_mem_prefix _ _ _ _ _ _ _ _ _ _ _ (by simp)
  · exact ⟨_, portPRRest_createPR_mem _ _ _ _ _ _ _ _ _ _ _ rfl rfl, rfl⟩
  · intro npr h
    rw [← hrun] at h
    have hd := portPR_draft_conflict _ _ _ _ _ _ _ _ h
    rw [hrun, portPRRest_hadConflict] at hd
    exact hd
  · refine ⟨_, by simpa using
      portPRRest_addLabels_mem _ _ _ _ _ _ _ _ true _ _ rfl rfl, ?_, ?_⟩ <;> simp
  · rw [portPRRest_comment_count _ _ _ _ _ _ _ _ _ _ rfl rfl rfl]
    simp [isCommentEffect]
  · exact ⟨_, portPRRest_comment_mem _ _ _ _ _ _ _ _ _ _ rfl rfl rfl,
      conflictCommentBody_contains_sha _ _ _ _ _ _ _,
      conflictCommentBody_contains_number _ _ _ _ _ _ _⟩

/-- C2 witness: the conflict flow at a concrete run (cherry-pick of
`abc123` onto `release-18` conflicts; the PR created is #77). -/
theorem portPR_conflict_flow_witness :
    (portPR sampleInfo samplePR "abc123" "release-18" backport ["Needs doc"]
      envConflictOk).hadConflict = true ∧
    Effect.gitCommit botAuthorFlag ("Cherry-pick " ++ "abc123" ++ " with conflicts") ∈
      (portPR sampleInfo samplePR "abc123" "release-18" backport ["Needs doc"]
        envConflictOk).effects ∧
    (∃ npr, Effect.createPR npr ∈ (portPR sampleInfo samplePR "abc123" "release-18" backport
        ["Needs doc"] envConflictOk).effects ∧ npr.draft = true) ∧
    (∀ npr, Effect.createPR npr ∈ (portPR sampleInfo samplePR "abc123" "release-18" backport
        ["Needs doc"] envConflictOk).effects → npr.draft = true) ∧
    (∃ ls, Effect.addLabels (CreatedPR.number ⟨77⟩) ls ∈
        (portPR sampleInfo samplePR "abc123" "release-18" backport ["Needs doc"]
          envConflictOk).effects ∧
      "Merge Conflict" ∈ ls ∧ "Skip CI" ∈ ls) ∧
    (portPR sampleInfo samplePR "abc123" "release-18" backport ["Needs doc"]
      envConflictOk).effects.countP isCommentEffect = 1 ∧
    ∃ body, Effect.createComment (CreatedPR.number ⟨77⟩) body ∈
        (portPR sampleInfo samplePR "abc123" "release-18" backport ["Needs doc"]
          envConflictOk).effects ∧
      goContains body "abc123" = true ∧
      goContains body (toString (CreatedPR.number ⟨77⟩)) = true :=
  portPR_conflict_flow sampleInfo samplePR "abc123" "release-18" backport ["Needs doc"]
    envConflictOk ⟨"basesha"⟩ "error: could not apply abc123: merge conflicts in file.go"
    ⟨77⟩ rfl rfl rfl rfl rfl rfl (by decide) rfl rfl rfl rfl rfl

/-! ## C3 -/

/-- C3: as stated, the claim is false: on a clean cherry-pick `portPR`
applies the carried-over labels unchanged, so when the original pull
request itself carried the label `"Merge Conflict"`, the clean port still
applies it.  Concretely, a clean port of #100 with carry-over list
`["Merge Conflict"]` succeeds (`hadConflict = false`, no error) and the
label-apply call's list contains `"Merge Conflict"`. -/
theorem portPR_clean_carry_label_counterexample :
    (portPR sampleInfo samplePR "abc123" "release-18" backport ["Merge Conflict"]
      envAllOk).hadConflict = false ∧
    (portPR sampleInfo samplePR "abc123" "release-18" backport ["Merge Conflict"]
      envAllOk).err = none ∧
    Effect.addLabels 77 ["Merge Conflict", "Backport"] ∈
      (portPR sampleInfo samplePR "abc123" "release-18" backport ["Merge Conflict"]
        envAllOk).effects := by
  decide

/-- C3 (amended): on a port whose cherry-pick applies cleanly (and whose
author amend, push and PR creation succeed), `portPR` records
`hadConflict = false`, creates the new pull request as a non-draft, and
adds neither `"Merge Conflict"` nor `"Skip CI"` beyond the carried-over
list: the one label-apply call's list is exactly the carried-over labels
plus the kind label, and the appended kind portion never contains the two
conflict labels.  In all cases (clean or not), the draft flag of any
created pull request equals the run's conflict flag. -/
theorem portPR_clean_flow (prInfo : PrInformation) (pr : PullRequest)
    (sha branch portType : String) (labels : List String) (env : PortEnv)
    (ref : Reference) (created : CreatedPR)
    (hg : env.getRefRes = .ok ref) (hcr : env.createRefRes = none)
    (hcl : cloneFatalErr env.cloneRes = none) (hf : env.fetchRes = none)
    (hco : env.checkoutRes = none) (hcp : env.cherryPickRes = none)
    (ham : env.amendRes = none) (hpu : env.pushRes = none)
    (hpc : env.createPRRes = .ok created) :
    (portPR prInfo pr sha branch portType labels env).hadConflict = false ∧
    (∃ npr, Effect.createPR npr ∈ (portPR prInfo pr sha branch portType labels env).effects ∧
      npr.draft = false) ∧
    Effect.addLabels created.number (labels ++ kindLabels portType) ∈
      (portPR prInfo pr sha branch portType labels env).effects ∧
    (∀ n ls, Effect.addLabels n ls ∈
        (portPR prInfo pr sha branch portType labels env).effects →
      ls = labels ++ kindLabels portType) ∧
    "Merge Conflict" ∉ kindLabels portType ∧
    "Skip CI" ∉ kindLabels portType ∧
    (∀ env2 npr,
      Effect.createPR npr ∈ (portPR prInfo pr sha branch portType labels env2).effects →
      npr.draft = (portPR prInfo pr sha branch portType labels env2).hadConflict) := by
  obtain ⟨g, cr, cl, fe, co, cp, ga, cm, am, pu, pc, al, cc, lr, rr⟩ := env
  dsimp only at hg hcr hcl hf hco hcp ham hpu hpc
  subst hg; subst hcr; subst hf; subst hco; subst hcp; subst ham
  subst hpu; subst hpc
  have hrun := portPR_clean_run prInfo pr sha branch portType labels
    ⟨.ok ref, none, cl, none, none, none, ga, cm, none, none, .ok created,
     al, cc, lr, rr⟩ ref rfl rfl hcl rfl rfl rfl rfl
  rw [hrun]
  refine ⟨?_, ?_, ?_, ?_, ?_, ?_, ?_⟩
  · rw [portPRRest_hadConflict]
  · exact ⟨_, portPRRest_createPR_mem _ _ _ _ _ _ _ _ _ _ _ rfl rfl, rfl⟩
  · simpa using portPRRest_addLabels_mem _ _ _ _ _ _ _ _ false _ _ rfl rfl
  · intro n ls h
    rcases portPRRest_addLabels_inv _ _ _ _ _ _ _ _ _ _ _ _ h with h' | h'
    · simp at h'
    · simpa using h'
  · unfold kindLabels
    repeat' split
    all_goals decide
  · unfold kindLabels
    repeat' split
    all_goals decide
  · exact fun env2 npr h => portPR_draft_conflict _ _ _ _ _ _ _ _ h

/-- C3 witness: the clean flow at a concrete run (clean cherry-pick of
`abc123` onto `release-18`, PR #77 created). -/
theorem portPR_clean_flow_witness :
    (portPR sampleInfo samplePR "abc123" "release-18" backport ["Needs doc"]
      envAllOk).hadConflict = false ∧
    (∃ npr, Effect.createPR npr ∈ (portPR sampleInfo samplePR "abc123" "release-18" backport
        ["Needs doc"] envAllOk).effects ∧ npr.draft = false) ∧
    Effect.addLabels (CreatedPR.number ⟨77⟩) (["Needs doc"] ++ kindLabels backport) ∈
      (portPR sampleInfo samplePR "abc123" "release-18" backport ["Needs doc"]
        envAllOk).effects ∧
    (∀ n ls, Effect.addLabels n ls ∈
        (portPR sampleInfo samplePR "abc123" "release-18" backport ["Needs doc"]
          envAllOk).effects →
      ls = ["Needs doc"] ++ kindLabels backport) ∧
    "Merge Conflict" ∉ kindLabels backport ∧
    "Skip CI" ∉ kindLabels backport ∧
    (∀ env2 npr,
      Effect.createPR npr ∈ (portPR sampleInfo samplePR "abc123" "release-18" backport
        ["Needs doc"] env2).effects →
      npr.draft = (portPR sampleInfo samplePR "abc123" "release-18" backport
        ["Needs doc"] env2).hadConflict) :=
  portPR_clean_flow sampleInfo samplePR "abc123" "release-18" backport ["Needs doc"]
    envAllOk ⟨"basesha"⟩ ⟨77⟩ rfl rfl rfl rfl rfl rfl rfl rfl rfl

/-! ## C4 -/

/-- C4: as stated, the claim is false: when the label-apply call fails
after the new pull request was created, `portPR` does not report a
successful port — it returns PR number 0 together with an error (the
created PR itself is left in place: the creation call is in the trace). -/
theorem portPR_post_failure_counterexample :
    (portPR sampleInfo samplePR "abc123" "release-18" backport [] envLabelFail).effects.any
      isCreatePREffect = true ∧
    (portPR sampleInfo samplePR "abc123" "release-18" backport [] envLabelFail).prNumber = 0 ∧
    (portPR sampleInfo samplePR "abc123" "release-18" backport [] envLabelFail).err.isSome =
      true := by
  decide

/-- C4 (amended): on every port whose steps succeed through PR creation, a
subsequent failure of the label-apply, conflict-comment, reviewer-list or
reviewer-request step DOES make `portPR` fail: it returns PR number 0 and a
wrapped error.  The already-created pull request is not rolled back — the
PR-creation call remains in the run's trace — and the orchestrator merely
logs the error and continues with the other branches. -/
theorem portPR_post_failure (prInfo : PrInformation) (pr : PullRequest)
    (sha branch portType : String) (labels : List String) (env : PortEnv)
    (ref : Reference) (created : CreatedPR)
    (hg : env.getRefRes = .ok ref) (hcr : env.createRefRes = none)
    (hcl : cloneFatalErr env.cloneRes = none) (hf : env.fetchRes = none)
    (hco : env.checkoutRes = none)
    (hpick : (env.cherryPickRes = none ∧ env.amendRes = none) ∨
      (∃ m, env.cherryPickRes = some m ∧ goContains m "conflicts" = true ∧
        env.gitAddRes = none ∧ env.commitRes = none))
    (hpu : env.pushRes = none) (hpc : env.createPRRes = .ok created)
    (hfail : env.addLabelsRes.isSome = true ∨
      ((∃ m, env.cherryPickRes = some m) ∧ env.createCommentRes.isSome = true) ∨
      (∃ er, env.listReviewersRes = .error er) ∨
      env.requestReviewersRes.isSome = true) :
    (portPR prInfo pr sha branch portType labels env).err.isSome = true ∧
    (portPR prInfo pr sha branch portType labels env).prNumber = 0 ∧
    (portPR prInfo pr sha branch portType labels env).effects.any isCreatePREffect = true := by
  rcases hpick with ⟨hcp, ham⟩ | ⟨m, hcp, hm, hga, hcm⟩
  · rw [portPR_clean_run prInfo pr sha branch portType labels env ref hg hcr hcl hf hco
      hcp ham]
    apply portPRRest_post_failure _ _ _ _ _ _ _ _ _ _ created hpu hpc
    rcases hfail with h | h | h | h
    · exact Or.inl h
    · exfalso
      rcases h.1 with ⟨m, hm2⟩
      rw [hcp] at hm2
      exact Option.noConfusion hm2
    · exact Or.inr (Or.inr (Or.inl h))
    · exact Or.inr (Or.inr (Or.inr h))
  · rw [portPR_conflict_run prInfo pr sha branch portType labels env ref m hg hcr hcl hf
      hco hcp hm hga hcm]
    apply portPRRest_post_failure _ _ _ _ _ _ _ _ _ _ created hpu hpc
    rcases hfail with h | h | h | h
    · exact Or.inl h
    · exact Or.inr (Or.inl ⟨rfl, h.2⟩)
    · exact Or.inr (Or.inr (Or.inl h))
    · exact Or.inr (Or.inr (Or.inr h))

/-- C4 witness: the amended behaviour at a concrete run (label apply fails
after PR #77 was created on a clean port). -/
theorem portPR_post_failure_witness :
    (portPR sampleInfo samplePR "abc123" "release-18" backport [] envLabelFail).err.isSome =
      true ∧
    (portPR sampleInfo samplePR "abc123" "release-18" backport [] envLabelFail).prNumber = 0 ∧
    (portPR sampleInfo samplePR "abc123" "release-18" backport [] envLabelFail).effects.any
      isCreatePREffect = true :=
  portPR_post_failure sampleInfo samplePR "abc123" "release-18" backport [] envLabelFail
    ⟨"basesha"⟩ ⟨77⟩ rfl rfl rfl rfl rfl (Or.inl ⟨rfl, rfl⟩) rfl rfl (Or.inl rfl)

/-! ## C5 -/

/-- C5: on every successful port, the reviewer list requested on the new
pull request is the original PR's individual reviewers followed by its team
reviewers followed by the original author — so every member of that union
appears in the requested list (duplicates tolerated, none omitted). -/
theorem portPR_reviewers_union (prInfo : PrInformation) (pr : PullRequest)
    (sha branch portType : String) (labels : List String) (env : PortEnv)
    (old : Reviewers)
    (hlr : env.listReviewersRes = .ok old)
    (hok : (portPR prInfo pr sha branch portType labels env).err = none) :
    (∃ n, Effect.requestReviewers n
        (old.users.map User.login ++ old.teams.map Team.tname ++ [pr.userLogin]) ∈
      (portPR prInfo pr sha branch portType labels env).effects) ∧
    ∀ s, (s ∈ old.users.map User.login ∨ s ∈ old.teams.map Team.tname ∨ s = pr.userLogin) →
      s ∈ old.users.map User.login ++ old.teams.map Team.tname ++ [pr.userLogin] := by
  constructor
  · obtain ⟨g, cr, cl, fe, co, cp, ga, cm, am, pu, pc, al, cc, lr, rr⟩ := env
    dsimp only at hlr
    subst hlr
    rcases g with ge | ref
    · simp [portPR] at hok
    · rcases cr with _ | cre
      · rcases hcl : cloneFatalErr cl with _ | ce
        · rcases fe with _ | fee
          · rcases co with _ | coe
            · rcases cp with _ | cpe
              · rcases am with _ | ame
                · simp only [portPR, hcl] at hok ⊢
                  exact portPRRest_success_reviewers _ _ _ _ _ _ _ _ _ _ _ rfl hok
                · simp [portPR, hcl] at hok
              · by_cases hm : goContains cpe "conflicts"
                · rcases ga with _ | gae
                  · rcases cm with _ | cme
                    · simp only [portPR, hcl, hm, if_true] at hok ⊢
                      exact portPRRest_success_reviewers _ _ _ _ _ _ _ _ _ _ _ rfl hok
                    · simp [portPR, hcl, hm] at hok
                  · simp [portPR, hcl, hm] at hok
                · simp [portPR, hcl, hm] at hok
            · simp [portPR, hcl] at hok
          · simp [portPR, hcl] at hok
        · simp [portPR, hcl] at hok
      · simp [portPR] at hok
  · intro s hs
    simp only [List.mem_append, List.mem_singleton]
    tauto

/-- C5 witness: on the all-success run, the reviewers requested on PR #77
are `["bob", "maintainers", "alice"]` — the original users, teams and
author. -/
theorem portPR_reviewers_union_witness :
    (∃ n, Effect.requestReviewers n
        ((Reviewers.users ⟨[⟨"bob"⟩], [⟨"maintainers"⟩]⟩).map User.login ++
          (Reviewers.teams ⟨[⟨"bob"⟩], [⟨"maintainers"⟩]⟩).map Team.tname ++
          [samplePR.userLogin]) ∈
      (portPR sampleInfo samplePR "abc123" "release-18" backport [] envAllOk).effects) ∧
    ∀ s, (s ∈ (Reviewers.users ⟨[⟨"bob"⟩], [⟨"maintainers"⟩]⟩).map User.login ∨
        s ∈ (Reviewers.teams ⟨[⟨"bob"⟩], [⟨"maintainers"⟩]⟩).map Team.tname ∨
        s = samplePR.userLogin) →
      s ∈ (Reviewers.users ⟨[⟨"bob"⟩], [⟨"maintainers"⟩]⟩).map User.login ++
        (Reviewers.teams ⟨[⟨"bob"⟩], [⟨"maintainers"⟩]⟩).map Team.tname ++
        [samplePR.userLogin] :=
  portPR_reviewers_union sampleInfo samplePR "abc123" "release-18" backport [] envAllOk
    ⟨[⟨"bob"⟩], [⟨"maintainers"⟩]⟩ rfl rfl

/-! ## C6 -/

/-- C6: the working-branch name is the pure function
`{portType}-{prNumber}-to-{branch}` of the port kind, the original PR
number and the target branch; every branch-naming effect of a `portPR` run
(ref creation, checkout, push, PR head) uses exactly that name, and the
orchestrator only ever invokes ports with kind `"backport"` or
`"forwardport"`. -/
theorem portPR_branch_naming (prInfo : PrInformation) (pr : PullRequest)
    (sha branch portType : String) (labels : List String) (env : PortEnv)
    (pi2 : PrInformation) (benv : BackportEnv) :
    newBranchName portType pr.number branch =
      portType ++ "-" ++ toString pr.number ++ "-to-" ++ branch ∧
    (portPR prInfo pr sha branch portType labels env).effects.all
      (effectUsesBranch (newBranchName portType pr.number branch)) = true ∧
    (backportPR pi2 benv).all (fun a => a.1 == backport || a.1 == forwardport) = true := by
  refine ⟨rfl, ?_, ?_⟩
  · obtain ⟨g, cr, cl, fe, co, cp, ga, cm, am, pu, pc, al, cc, lr, rr⟩ := env
    rcases g with ge | ref
    · simp [portPR, effectUsesBranch]
    · rcases cr with _ | cre
      · rcases hcl : cloneFatalErr cl with _ | ce
        · rcases fe with _ | fee
          · rcases co with _ | coe
            · rcases cp with _ | cpe
              · rcases am with _ | ame
                · simp only [portPR, hcl]
                  apply portPRRest_branchOk
                  simp [effectUsesBranch]
                · simp [portPR, hcl, effectUsesBranch]
              · by_cases hm : goContains cpe "conflicts"
                · rcases ga with _ | gae
                  · rcases cm with _ | cme
                    · simp only [portPR, hcl, hm, if_true]
                      apply portPRRest_branchOk
                      simp [effectUsesBranch]
                    · simp [portPR, hcl, hm, effectUsesBranch]
                  · simp [portPR, hcl, hm, effectUsesBranch]
                · simp [portPR, hcl, hm, effectUsesBranch]
            · simp [portPR, hcl, effectUsesBranch]
          · simp [portPR, hcl, effectUsesBranch]
        · simp [portPR, hcl, effectUsesBranch]
      · simp [portPR, effectUsesBranch]
  · rcases hb : benv.getPRRes with e | prx
    · simp [backportPR, hb]
    · simp only [backportPR, hb]
      rw [List.all_append, Bool.and_eq_true]
      refine ⟨?_, ?_⟩
      · rw [List.all_eq_true]
        intro x hx
        rw [runPorts_portType_mem _ _ _ _ _ _ _ x hx]
        simp
      · rw [List.all_eq_true]
        intro x hx
        rw [runPorts_portType_mem _ _ _ _ _ _ _ x hx]
        simp

/-! ## C7 -/

/-- C7: once the merged PR is fetched, the orchestrator runs `portPR`
exactly once per planned backport branch and once per planned forward-port
branch; each branch's result is a function of that branch's own environment
only, so one branch's failure cannot prevent or change any other branch's
port attempt (the result list always has one entry per planned branch). -/
theorem backportPR_per_branch (pi : PrInformation) (benv : BackportEnv)
    (pr : PullRequest) (bB fB oL : List String)
    (hget : benv.getPRRes = .ok pr)
    (hplan : planLabels pr.labels = (bB, fB, oL)) :
    backportPR pi benv =
      bB.map (fun branch => (backport, branch,
        portPR pi pr pr.mergeCommitSHA branch backport oL (benv.envFor backport branch))) ++
      fB.map (fun branch => (forwardport, branch,
        portPR pi pr pr.mergeCommitSHA branch forwardport oL
          (benv.envFor forwardport branch))) ∧
    (backportPR pi benv).length = bB.length + fB.length := by
  have h1 : backportPR pi benv =
      bB.map (fun branch => (backport, branch,
        portPR pi pr pr.mergeCommitSHA branch backport oL (benv.envFor backport branch))) ++
      fB.map (fun branch => (forwardport, branch,
        portPR pi pr pr.mergeCommitSHA branch forwardport oL
          (benv.envFor forwardport branch))) := by
    simp only [backportPR, hget, hplan]
    rw [runPorts_eq_map, runPorts_eq_map]
  refine ⟨h1, ?_⟩
  rw [h1]
  simp

/-- The merged PR of the spec's scenario: #100 with labels
`["Backport to: release-18", "Needs doc", "Backport to: release-19"]`. -/
def prWithLabels : PullRequest :=
  ⟨100, "Fix query planner", "abc123", "alice",
   [some ⟨"Backport to: release-18"⟩, some ⟨"Needs doc"⟩,
    some ⟨"Backport to: release-19"⟩]⟩

/-- An orchestrator environment: the PR lookup returns `prWithLabels` and
every port invocation sees the all-success environment. -/
def sampleBenv : BackportEnv := ⟨.ok prWithLabels, fun _ _ => envAllOk⟩

/-- C7 witness: the scenario PR yields exactly one port per planned branch
(`release-18` and `release-19`), with `["Needs doc"]` carried over. -/
theorem backportPR_per_branch_witness :
    backportPR sampleInfo sampleBenv =
      (["release-18", "release-19"] : List String).map (fun branch => (backport, branch,
        portPR sampleInfo prWithLabels prWithLabels.mergeCommitSHA branch backport
          ["Needs doc"] (sampleBenv.envFor backport branch))) ++
      ([] : List String).map (fun branch => (forwardport, branch,
        portPR sampleInfo prWithLabels prWithLabels.mergeCommitSHA branch forwardport
          ["Needs doc"] (sampleBenv.envFor forwardport branch))) ∧
    (backportPR sampleInfo sampleBenv).length =
      (["release-18", "release-19"] : List String).length + ([] : List String).length :=
  backportPR_per_branch sampleInfo sampleBenv prWithLabels ["release-18", "release-19"]
    [] ["Needs doc"] rfl (by decide)

/-! ## C8 -/

/-- C8: when the target branch's ref lookup fails, `portPR` returns
immediately: its whole trace is the single `GetRef` call — no ref creation,
clone, fetch, checkout, cherry-pick, push or PR creation is attempted — the
returned PR number is 0 with a wrapped error, and the orchestrator's loop
still produces the port attempts of all remaining branches. -/
theorem portPR_ref_lookup_failure (prInfo : PrInformation) (pr : PullRequest)
    (sha portType : String) (labels : List String)
    (envFor : String → String → PortEnv) (branch : String)
    (restBranches : List String) (ge : String)
    (h : (envFor portType branch).getRefRes = .error ge) :
    portPR prInfo pr sha branch portType labels (envFor portType branch) =
      ⟨[Effect.getRef ("heads/" ++ branch)], 0, some (wrapf "" ge), false⟩ ∧
    runPorts prInfo pr sha portType labels envFor (branch :: restBranches) =
      (portType, branch,
        (⟨[Effect.getRef ("heads/" ++ branch)], 0, some (wrapf "" ge), false⟩ :
          PortOutcome)) ::
        runPorts prInfo pr sha portType labels envFor restBranches := by
  have h1 : portPR prInfo pr sha branch portType labels (envFor portType branch) =
      ⟨[Effect.getRef ("heads/" ++ branch)], 0, some (wrapf "" ge), false⟩ := by
    simp [portPR, h]
  exact ⟨h1, by simp [runPorts, h1]⟩

/-- An environment whose branch-ref lookup fails. -/
def envRefFail : PortEnv := { envAllOk with getRefRes := .error "ref not found" }

/-- An orchestrator port environment that fails every ref lookup. -/
def constEnvFor : String → String → PortEnv := fun _ _ => envRefFail

/-- C8 witness: porting to the non-existent `release-99` stops at the ref
lookup and the loop still reaches `release-18`. -/
theorem portPR_ref_lookup_failure_witness :
    portPR sampleInfo samplePR "abc123" "release-99" backport []
        (constEnvFor backport "release-99") =
      ⟨[Effect.getRef ("heads/" ++ "release-99")], 0, some (wrapf "" "ref not found"),
        false⟩ ∧
    runPorts sampleInfo samplePR "abc123" backport [] constEnvFor
        ("release-99" :: ["release-18"]) =
      (backport, "release-99",
        (⟨[Effect.getRef ("heads/" ++ "release-99")], 0, some (wrapf "" "ref not found"),
          false⟩ : PortOutcome)) ::
        runPorts sampleInfo samplePR "abc123" backport [] constEnvFor ["release-18"] :=
  portPR_ref_lookup_failure sampleInfo samplePR "abc123" backport [] constEnvFor
    "release-99" ["release-18"] "ref not found" rfl

/-! ## C9 -/

theorem portPR_fetch_attempted (prInfo : PrInformation) (pr : PullRequest)
    (sha branch portType : String) (labels : List String) (env : PortEnv)
    (ref : Reference)
    (hg : env.getRefRes = .ok ref) (hcr : env.createRefRes = none)
    (hcl : cloneFatalErr env.cloneRes = none) :
    Effect.gitFetch ∈ (portPR prInfo pr sha branch portType labels env).effects := by
  obtain ⟨g, cr, cl, fe, co, cp, ga, cm, am, pu, pc, al, cc, lr, rr⟩ := env
  dsimp only at hg hcr hcl
  subst hg; subst hcr
  rcases fe with _ | fee
  · rcases co with _ | coe
    · rcases cp with _ | cpe
      · rcases am with _ | ame
        · simp only [portPR, hcl]
          apply portPRRest_mem_prefix
          simp
        · simp [portPR, hcl]
      · by_cases hm : goContains cpe "conflicts"
        · rcases ga with _ | gae
          · rcases cm with _ | cme
            · simp only [portPR, hcl, hm, if_true]
              apply portPRRest_mem_prefix
              simp
            · simp [portPR, hcl, hm]
          · simp [portPR, hcl, hm]
        · simp [portPR, hcl, hm]
    · simp [portPR, hcl]
  · simp [portPR, hcl]

theorem cloneFatalErr_none : cloneFatalErr none = none := rfl

theorem portPRRest_env_congr (prInfo : PrInformation) (pr : PullRequest)
    (sha branch portType : String) (labels : List String) (env1 env2 : PortEnv)
    (nb : String) (conflict : Bool) (e : List Effect)
    (h1 : env1.pushRes = env2.pushRes) (h2 : env1.createPRRes = env2.createPRRes)
    (h3 : env1.addLabelsRes = env2.addLabelsRes)
    (h4 : env1.createCommentRes = env2.createCommentRes)
    (h5 : env1.listReviewersRes = env2.listReviewersRes)
    (h6 : env1.requestReviewersRes = env2.requestReviewersRes) :
    portPRRest prInfo pr sha branch portType labels env1 nb conflict e =
      portPRRest prInfo pr sha branch portType labels env2 nb conflict e := by
  simp only [portPRRest, portPRReviewers, h1, h2, h3, h4, h5, h6]

/-- C9: a clone failure whose message contains `"already exists and is not
an empty directory"` is treated exactly like a successful clone — the whole
run is unchanged, and in particular the workflow goes on to the fetch step
— while a clone failure without that message is fatal for the branch: the
run stops right after the clone call with PR number 0 and a wrapped
error. -/
theorem portPR_clone_tolerance (prInfo : PrInformation) (pr : PullRequest)
    (sha branch portType : String) (labels : List String) (env : PortEnv)
    (ref : Reference) (msgT msgF : String)
    (hT : goContains msgT "already exists and is not an empty directory" = true)
    (hF : goContains msgF "already exists and is not an empty directory" = false)
    (hg : env.getRefRes = .ok ref) (hcr : env.createRefRes = none) :
    portPR prInfo pr sha branch portType labels { env with cloneRes := some msgT } =
      portPR prInfo pr sha branch portType labels { env with cloneRes := none } ∧
    Effect.gitFetch ∈
      (portPR prInfo pr sha branch portType labels
        { env with cloneRes := some msgT }).effects ∧
    portPR prInfo pr sha branch portType labels { env with cloneRes := some msgF } =
      ⟨[Effect.getRef ("heads/" ++ branch),
        Effect.createRef ("refs/heads/" ++ newBranchName portType pr.number branch) ref.sha,
        Effect.gitClone ("git@github.com:" ++ prInfo.repoOwner ++ "/" ++ prInfo.repoName ++
          ".git") "/tmp/vitess"], 0,
       some (wrapf ("Failed to clone repository " ++ prInfo.repoOwner ++ "/" ++
         prInfo.repoName ++ " to backport Pull Request " ++ toString prInfo.num) msgF),
       false⟩ := by
  obtain ⟨g, cr, cl, fe, co, cp, ga, cm, am, pu, pc, al, cc, lr, rr⟩ := env
  dsimp only at hg hcr
  subst hg; subst hcr
  have h1 : cloneFatalErr (some msgT) = (none : Option String) := by
    simp [cloneFatalErr, hT]
  refine ⟨?_, ?_, ?_⟩
  · rcases fe with _ | fee
    · rcases co with _ | coe
      · rcases cp with _ | cpe
        · rcases am with _ | ame
          · simp only [portPR, h1, cloneFatalErr_none]
            exact portPRRest_env_congr _ _ _ _ _ _ _ _ _ _ _ rfl rfl rfl rfl rfl rfl
          · simp [portPR, h1, cloneFatalErr_none]
        · by_cases hm : goContains cpe "conflicts"
          · rcases ga with _ | gae
            · rcases cm with _ | cme
              · simp only [portPR, h1, cloneFatalErr_none, hm, if_true]
                exact portPRRest_env_congr _ _ _ _ _ _ _ _ _ _ _ rfl rfl rfl rfl rfl rfl
              · simp [portPR, h1, cloneFatalErr_none, hm]
            · simp [portPR, h1, cloneFatalErr_none, hm]
          · simp [portPR, h1, cloneFatalErr_none, hm]
      · simp [portPR, h1, cloneFatalErr_none]
    · simp [portPR, h1, cloneFatalErr_none]
  · exact portPR_fetch_attempted _ _ _ _ _ _ _ ref rfl rfl (by simp [cloneFatalErr, hT])
  · simp [portPR, cloneFatalErr, hF]

/-- C9 witness: the tolerated and the fatal clone error at concrete
messages. -/
theorem portPR_clone_tolerance_witness :
    portPR sampleInfo samplePR "abc123" "release-18" backport []
        { envAllOk with
          cloneRes := some
            "fatal: destination path /tmp/vitess already exists and is not an empty directory" } =
      portPR sampleInfo samplePR "abc123" "release-18" backport []
        { envAllOk with cloneRes := none } ∧
    Effect.gitFetch ∈
      (portPR sampleInfo samplePR "abc123" "release-18" backport []
        { envAllOk with
          cloneRes := some
            "fatal: destination path /tmp/vitess already exists and is not an empty directory" }).effects ∧
    portPR sampleInfo samplePR "abc123" "release-18" backport []
        { envAllOk with cloneRes := some "network unreachable" } =
      ⟨[Effect.getRef ("heads/" ++ "release-18"),
        Effect.createRef ("refs/heads/" ++ newBranchName backport samplePR.number
          "release-18") (Reference.sha ⟨"basesha"⟩),
        Effect.gitClone ("git@github.com:" ++ sampleInfo.repoOwner ++ "/" ++
          sampleInfo.repoName ++ ".git") "/tmp/vitess"], 0,
       some (wrapf ("Failed to clone repository " ++ sampleInfo.repoOwner ++ "/" ++
         sampleInfo.repoName ++ " to backport Pull Request " ++ toString sampleInfo.num)
         "network unreachable"),
       false⟩ :=
  portPR_clone_tolerance sampleInfo samplePR "abc123" "release-18" backport [] envAllOk
    ⟨"basesha"⟩
    "fatal: destination path /tmp/vitess already exists and is not an empty directory"
    "network unreachable" (by decide) (by decide) rfl rfl
